import Mathlib

/-!
Verification of the openai-deep-research-mcp server against its design spec.

The repository holds two divergent implementations of the same three tool
handlers (create, check_status, get_results):

* `src/server.ts` — the TypeScript source.  Its check_status handler never
  talks to the research engine: it simulates completion by flipping a
  pending job to completed once more than five wall-clock minutes have
  elapsed since creation.  Its create handler caches the raw response of
  the background-create call on the job at creation time, and its
  get_results handler performs no lazy retrieval.
* `dist/server.js` — the shipped build artifact (package.json `main` and
  `bin` point at it, and the test suite spawns it).  Its check_status
  handler polls the engine by the stored operation reference and
  transitions per the engine-reported status; get_results lazily fetches
  the full document when the cache is missing.

Both implementations are embedded below: the `TS`-suffixed definitions
follow `src/server.ts` line by line; the `Dist`-suffixed definitions
follow `dist/server.js`.  External effects (the engine calls, `Date.now()`
and the random id suffix) are passed in as explicit arguments so the
handlers become pure functions on a registry state.
-/

namespace DeepResearch

/-- Job status, mirroring the `"pending" | "completed" | "failed"` union of
the `ResearchRequest` interface. -/
inductive Status where
  | pending
  | completed
  | failed
deriving DecidableEq

/-- The status string written into JSON payloads. -/
def statusStr : Status → String
  | Status.pending => "pending"
  | Status.completed => "completed"
  | Status.failed => "failed"

/-- One engine-supplied citation-like metadata record (source field name:
`annotations` entries), with the optional `title`, `url` and `snippet`
fields read by the extraction code. -/
structure Annot where
  title : Option String
  url : Option String
  snippet : Option String
deriving DecidableEq

/-- A JSON field as the JavaScript guards see it: `absent` is a missing
(nullish) value; `str s` is a JS string, which is falsy exactly when
empty and whose numeric indexing yields a one-character string;
`notArray` is any other truthy non-array value whose relevant property
and numeric accesses yield undefined (e.g. an object without numeric
keys); `arr xs` is an actual array (truthy even when empty, recognized by
`Array.isArray`).  Used for `response.output` and for a message's
`content`. -/
inductive JField (α : Type) where
  | absent
  | str (s : String)
  | notArray
  | arr (xs : List α)
deriving DecidableEq

/-- One content item of a message: an optional `text` field and an optional
list of annotation records (source field name: `annotations`). -/
structure ContentItem where
  text : Option String
  annots : Option (List Annot)
deriving DecidableEq

/-- One element of the engine response's `output` array. -/
structure OutputMsg where
  content : JField ContentItem
deriving DecidableEq

/-- The raw document returned by the engine (`client.responses.create` or
`client.responses.retrieve`): the fields the server reads are `id`,
`status` and `output`. -/
structure ResponseDoc where
  id : Option String
  status : Option String
  output : JField OutputMsg
deriving DecidableEq

/-- A normalized citation, mirroring the `Citation` interface
(`id`, `title`, optional `url`/`snippet`). -/
structure Citation where
  id : Nat
  title : String
  url : Option String
  snippet : Option String
deriving DecidableEq

/-- A tracked job as stored by `src/server.ts` (`ResearchRequest`
interface).  `createdAt` is milliseconds since the epoch. -/
structure ResearchRequest where
  id : String
  query : String
  systemMessage : Option String
  model : String
  status : Status
  response : Option ResponseDoc
  error : Option String
  createdAt : Nat
deriving DecidableEq

/-- A tracked job as stored by `dist/server.js`: same shape plus the
`openaiResponseId` operation reference, and `response` starts empty. -/
structure DistRequest where
  id : String
  query : String
  systemMessage : Option String
  model : String
  status : Status
  openaiResponseId : Option String
  response : Option ResponseDoc
  error : Option String
  createdAt : Nat
deriving DecidableEq

/-- Validated input of the create tool. -/
structure CreateInput where
  query : String
  system_message : Option String
  model : String
  include_code_interpreter : Bool
deriving DecidableEq

/-- The `results` object of a successful get_results payload. -/
structure ResultsPayload where
  report : String
  citations : List Citation
  citation_count : Nat
deriving DecidableEq

/-- The JSON document a handler serializes into its tool response; fields
absent from a given response are `none`. -/
structure ToolOutput where
  request_id : Option String := none
  status : Option String := none
  error : Option String := none
  message : Option String := none
  query : Option String := none
  model : Option String := none
  created_at : Option Nat := none
  elapsed_minutes : Option Nat := none
  results : Option ResultsPayload := none
deriving DecidableEq

/-! ### The job registry

`researchRequests` is a JavaScript `Map`; we model it as an association
list in insertion order.  `Map.get` is first-match lookup; `Map.set`
replaces the value in place when the key exists and appends otherwise. -/

/-- `Map.get`. -/
def mapGet {α : Type} : List (String × α) → String → Option α
  | [], _ => none
  | (k, v) :: rest, j => if k = j then some v else mapGet rest j

/-- `Map.set`: replace in place if the key exists, else append. -/
def mapSet {α : Type} : List (String × α) → String → α → List (String × α)
  | [], j, v => [(j, v)]
  | (k, w) :: rest, j, v => if k = j then (j, v) :: rest else (k, w) :: mapSet rest j v

/-- Registry of `src/server.ts`. -/
abbrev TsState : Type := List (String × ResearchRequest)

/-- Registry of `dist/server.js`. -/
abbrev DistState : Type := List (String × DistRequest)

theorem mapGet_mapSet {α : Type} (s : List (String × α)) (k j : String) (v : α) :
    mapGet (mapSet s k v) j = if k = j then some v else mapGet s j := by
  induction s with
  | nil => simp [mapGet, mapSet]
  | cons hd tl ih =>
    obtain ⟨k0, v0⟩ := hd
    by_cases h0 : k0 = k
    · subst h0
      by_cases h1 : k0 = j <;> simp [mapGet, mapSet, h1]
    · by_cases h1 : k0 = j
      · subst h1
        have hk : ¬ k = k0 := fun h => h0 h.symm
        simp [mapGet, mapSet, h0, hk]
      · simp [mapGet, mapSet, h0, h1, ih]

theorem mapSet_self {α : Type} (s : List (String × α)) (k : String) (v : α)
    (h : mapGet s k = some v) : mapSet s k v = s := by
  induction s with
  | nil => simp [mapGet] at h
  | cons hd tl ih =>
      obtain ⟨k0, v0⟩ := hd
      by_cases h0 : k0 = k
      · subst h0
        simp [mapGet] at h
        simp [mapSet, h]
      · simp [mapGet, h0] at h
        simp [mapSet, h0, ih h]

theorem mapSet_length_of_fresh {α : Type} (s : List (String × α)) (k : String) (v : α)
    (h : mapGet s k = none) : (mapSet s k v).length = s.length + 1 := by
  induction s with
  | nil => simp [mapSet]
  | cons hd tl ih =>
    obtain ⟨k0, v0⟩ := hd
    by_cases h0 : k0 = k
    · subst h0
      simp [mapGet] at h
    · simp [mapGet, h0] at h
      simp [mapSet, h0, ih h]

/-! ### Shared helpers of both implementations -/

/-- JavaScript truthiness of an optional string (absent and `""` are
falsy). -/
def optStrTruthy : Option String → Bool
  | none => false
  | some s => s ≠ ""

/-- JavaScript truthiness of a modeled JSON field: a missing value and
the empty string are falsy; every array (even `[]`) and every other
object is truthy. -/
def jfTruthy {α : Type} : JField α → Bool
  | JField.absent => false
  | JField.str s => s ≠ ""
  | JField.notArray => true
  | JField.arr _ => true

/-- `annotation.title || "Unknown"`: JS `||` also replaces an empty-string
title. -/
def jsTitleDefault : Option String → String
  | none => "Unknown"
  | some t => if t = "" then "Unknown" else t

/-- `mainContent.text || String(mainContent)`: falls back to the JS string
rendering of the object when `text` is absent or empty. -/
def reportText (c : ContentItem) : String :=
  match c.text with
  | none => "[object Object]"
  | some t => if t = "" then "[object Object]" else t

/-- The `forEach`-with-index loop that pushes one `Citation` per
annotation record. -/
def citationsAux (i : Nat) : List Annot → List Citation
  | [] => []
  | a :: rest =>
      { id := i + 1, title := jsTitleDefault a.title,
        url := a.url, snippet := a.snippet } :: citationsAux (i + 1) rest

/-- Citation extraction from the primary content block (`if
(mainContent.annotations) { ... forEach ... }`). -/
def extractCitations (c : ContentItem) : List Citation :=
  match c.annots with
  | none => []
  | some anns => citationsAux 0 anns

/-- The locally generated identifier:
`req_${Date.now()}_${Math.random().toString(36).substr(2, 9)}`. -/
def requestIdFor (now : Nat) (rand : String) : String :=
  "req_" ++ toString now ++ "_" ++ rand

/-- `Math.round((now - createdAt) / 1000 / 60)` for a non-negative
difference in milliseconds. -/
def elapsedRoundedMin (now createdAt : Nat) : Nat :=
  (now - createdAt + 30000) / 60000

/-- The `not found` response shared by check_status and get_results. -/
def notFoundOutput (rid : String) : ToolOutput :=
  { error := some ("Request ID " ++ rid ++ " not found"), status := some "not_found" }

/-- The `not completed` rejection of get_results. -/
def notCompletedOutput (rid : String) (st : Status) : ToolOutput :=
  { error := some ("Request " ++ rid ++ " is not completed. Status: " ++ statusStr st),
    status := some (statusStr st) }

/-! ### `src/server.ts` handlers -/

/-- Create handler of `src/server.ts`.  `eres` is the outcome of client
construction plus the `client.responses.create` call (any throw up to that
point lands in the catch branch); `now` is `Date.now()` and `rand` the
random id suffix.  On success the job is stored with status pending and
the raw create response cached in `response`; on failure the registry is
untouched.  The message/tool-list construction sent to the engine carries
no information into the stored job beyond the fields kept here. -/
def createTs (s : TsState) (inp : CreateInput) (eres : Except String ResponseDoc)
    (now : Nat) (rand : String) : TsState × ToolOutput :=
  match eres with
  | Except.error e =>
      (s, { error := some ("Failed to create research request: " ++ e),
            status := some "failed" })
  | Except.ok doc =>
      let rid := requestIdFor now rand
      let r : ResearchRequest :=
        { id := rid, query := inp.query, systemMessage := inp.system_message,
          model := inp.model, status := Status.pending, response := some doc,
          error := none, createdAt := now }
      (mapSet s rid r,
       { request_id := some rid, status := some "pending",
         message := some "Research request created successfully" })

/-- The status/query/model/elapsed JSON written by check_status. -/
def checkOutput (r : ResearchRequest) (now : Nat) : ToolOutput :=
  { request_id := some r.id, status := some (statusStr r.status),
    query := some r.query, model := some r.model,
    created_at := some r.createdAt,
    elapsed_minutes := some (elapsedRoundedMin now r.createdAt) }

/-- Check-status handler of `src/server.ts`.  It performs no engine call at
all (the function takes no engine argument): a pending job is flipped to
completed exactly when more than five minutes (300000 ms) have elapsed
since `createdAt`. -/
def checkStatusTs (s : TsState) (rid : String) (now : Nat) : TsState × ToolOutput :=
  match mapGet s rid with
  | none => (s, notFoundOutput rid)
  | some r =>
      if now - r.createdAt > 300000 ∧ r.status = Status.pending then
        let r2 : ResearchRequest := { r with status := Status.completed }
        (mapSet s rid r2, checkOutput r2 now)
      else
        (s, checkOutput r now)

/-- The untyped `mainContent` value of the TypeScript get_results: either
a content object (the usual case) or a JS string — what string indexing
of a string-valued `content` field yields. -/
inductive PrimaryContent where
  | item (c : ContentItem)
  | strVal (s : String)
deriving DecidableEq

/-- JS `s[0]`: the first character of a string as a one-character string,
undefined when the string is empty. -/
def strFirstChar (s : String) : Option String :=
  match s.data with
  | [] => none
  | ch :: _ => some (String.singleton ch)

/-- `?.content?.[0]` on the content field: the first content item when it
is an array; the first character when it is a non-empty string (JS
strings index like arrays); undefined for the empty string, a missing
value, or a non-indexable object. -/
def contentHead : JField ContentItem → Option PrimaryContent
  | JField.arr cs => Option.map PrimaryContent.item cs.head?
  | JField.str s => Option.map PrimaryContent.strVal (strFirstChar s)
  | _ => none

/-- `response.output[response.output.length - 1]?.content?.[0]` — the
primary content block: first content item of the last output message.  A
string-valued output indexes to a character, whose `.content` is
undefined, and a non-indexable object yields undefined, so both fall to
`none`. -/
def tsMainContent : JField OutputMsg → Option PrimaryContent
  | JField.arr msgs =>
      match msgs.getLast? with
      | some m => contentHead (OutputMsg.content m)
      | none => none
  | _ => none

/-- `mainContent.text || String(mainContent)` on the untyped value: a
string main content has no `text` property, and `String` of a string is
itself. -/
def reportTextPC : PrimaryContent → String
  | PrimaryContent.item c => reportText c
  | PrimaryContent.strVal s => s

/-- Citation extraction on the untyped value: a string main content has
no `annotations` property. -/
def extractCitationsPC : PrimaryContent → List Citation
  | PrimaryContent.item c => extractCitations c
  | PrimaryContent.strVal _ => []

/-- The success payload of get_results. -/
def tsSuccessOutput (r : ResearchRequest) (pc : PrimaryContent) : ToolOutput :=
  { request_id := some r.id, status := some "completed",
    query := some r.query, model := some r.model,
    results := some { report := reportTextPC pc, citations := extractCitationsPC pc,
                      citation_count := (extractCitationsPC pc).length } }

/-- Extraction stage of the TypeScript get_results, operating on the
job's cached response: `!response?.output` (a missing response or a falsy
output) yields `No results available`; a missing primary content block
(`output[len - 1]?.content?.[0]` undefined, a falsy value) yields
`Unable to extract results from response`; any truthy main content —
including a character plucked from a string-valued `content` — yields the
success payload. -/
def tsExtractOutput (r : ResearchRequest) (resp : Option ResponseDoc) : ToolOutput :=
  match resp with
  | none => { error := some "No results available", status := some "error" }
  | some d =>
      if jfTruthy (ResponseDoc.output d) = false then
        { error := some "No results available", status := some "error" }
      else
        match tsMainContent (ResponseDoc.output d) with
        | none =>
            { error := some "Unable to extract results from response",
              status := some "error" }
        | some pc => tsSuccessOutput r pc

/-- Get-results handler of `src/server.ts`.  No lazy retrieval exists: the
handler takes no engine argument and only reads the `response` cached at
creation time.  Every failure branch is a structured `error` document. -/
def getResultsTs (s : TsState) (rid : String) : TsState × ToolOutput :=
  match mapGet s rid with
  | none => (s, notFoundOutput rid)
  | some r =>
      if r.status ≠ Status.completed then
        (s, notCompletedOutput rid r.status)
      else
        (s, tsExtractOutput r (ResearchRequest.response r))

/-! ### `dist/server.js` handlers

These take the engine's `responses.retrieve` as an explicit oracle
`engine : String → Except String ResponseDoc` and additionally report
whether (check_status) or how many times (get_results) the engine was
called, so that "no engine re-query" claims are statable. -/

/-- Create handler of `dist/server.js`: identical control flow to the TS
one, but the stored job keeps only the operation reference
(`openaiResponseId := response.id`) and starts with no cached result. -/
def createDist (s : DistState) (inp : CreateInput) (eres : Except String ResponseDoc)
    (now : Nat) (rand : String) : DistState × ToolOutput :=
  match eres with
  | Except.error e =>
      (s, { error := some ("Failed to create research request: " ++ e),
            status := some "failed" })
  | Except.ok doc =>
      let rid := requestIdFor now rand
      let r : DistRequest :=
        { id := rid, query := inp.query, systemMessage := inp.system_message,
          model := inp.model, status := Status.pending,
          openaiResponseId := ResponseDoc.id doc, response := none,
          error := none, createdAt := now }
      (mapSet s rid r,
       { request_id := some rid, status := some "pending",
         message := some "Research request created successfully" })

/-- The status/query/model/elapsed JSON written by the dist check_status. -/
def distCheckOutput (r : DistRequest) (now : Nat) : ToolOutput :=
  { request_id := some r.id, status := some (statusStr r.status),
    query := some r.query, model := some r.model,
    created_at := some r.createdAt,
    elapsed_minutes := some (elapsedRoundedMin now r.createdAt) }

/-- Check-status handler of `dist/server.js`.  When the job is pending and
holds a truthy operation reference, it retrieves the operation: on an
engine-reported completed it caches the full document and completes the
job, on failed it records the fixed failure message, on anything else (or
on a thrown retrieval error, which is logged and swallowed) the job is
left as it was.  The third component records whether the engine was
called. -/
def checkStatusDist (s : DistState) (rid : String)
    (engine : String → Except String ResponseDoc) (now : Nat) :
    DistState × ToolOutput × Bool :=
  match mapGet s rid with
  | none => (s, notFoundOutput rid, false)
  | some r =>
      if optStrTruthy r.openaiResponseId ∧ r.status = Status.pending then
        let r2 : DistRequest :=
          match engine (Option.getD r.openaiResponseId "") with
          | Except.error _ => r
          | Except.ok d =>
              if ResponseDoc.status d = some "completed" then
                { r with status := Status.completed, response := some d }
              else if ResponseDoc.status d = some "failed" then
                { r with status := Status.failed,
                         error := some "Research request failed" }
              else r
        (mapSet s rid r2, distCheckOutput r2 now, true)
      else
        (s, distCheckOutput r now, false)

/-- The lazy-retrieval guard of the dist get_results:
`request.openaiResponseId && (!response || !response.output)` — the
output is falsy when absent or the empty string. -/
def needsFetch (r : DistRequest) : Bool :=
  optStrTruthy r.openaiResponseId &&
    (match r.response with
     | none => true
     | some d =>
         match ResponseDoc.output d with
         | JField.absent => true
         | JField.str s => s = ""
         | _ => false)

/-- The document the dist get_results ends up reading for extraction: the
freshly retrieved one when the lazy-fetch guard fires (none if that
retrieval throws), else the cached one. -/
def distReadDoc (r : DistRequest) (engine : String → Except String ResponseDoc) :
    Option ResponseDoc :=
  if needsFetch r then
    match engine (Option.getD r.openaiResponseId "") with
    | Except.ok d => some d
    | Except.error _ => none
  else r.response

/-- The dist success payload of get_results. -/
def distSuccessOutput (r : DistRequest) (c : ContentItem) : ToolOutput :=
  { request_id := some r.id, status := some "completed",
    query := some r.query, model := some r.model,
    results := some { report := reportText c, citations := extractCitations c,
                      citation_count := (extractCitations c).length } }

/-- Content-list stage of the dist get_results guards: a missing or
non-array content list of the last message, then an empty one, each with
its own error message. -/
def distContentOutput (r : DistRequest) (cf : JField ContentItem) : ToolOutput :=
  match cf with
  | JField.arr cs =>
      match cs.head? with
      | none => { error := some "No content in last message", status := some "error" }
      | some c => distSuccessOutput r c
  | _ =>
      { error := some "Unable to extract content from last message",
        status := some "error" }

/-- Output-list stage of the dist get_results guards: output absent, not
an array, or empty (`!output || !Array.isArray(output) || output.length
=== 0`), then the last message's content list. -/
def distOutputStage (r : DistRequest) (o : JField OutputMsg) : ToolOutput :=
  match o with
  | JField.arr msgs =>
      match msgs.getLast? with
      | none =>
          { error := some "No output available in response", status := some "error" }
      | some m => distContentOutput r (OutputMsg.content m)
  | _ => { error := some "No output available in response", status := some "error" }

/-- Extraction stage of the dist get_results, with its sequence of guard
clauses: no response, then the output-list and content-list guards. -/
def distExtractOutput (r : DistRequest) (resp : Option ResponseDoc) : ToolOutput :=
  match resp with
  | none => { error := some "No results available", status := some "error" }
  | some d => distOutputStage r (ResponseDoc.output d)

/-- Get-results handler of `dist/server.js`.  After the not-found and
not-completed rejections, the lazy fetch may run once: a thrown retrieval
error is returned as a structured error without touching the job; a
successful retrieval is cached on the job before extraction.  The third
component counts engine retrievals (0 or 1). -/
def getResultsDist (s : DistState) (rid : String)
    (engine : String → Except String ResponseDoc) :
    DistState × ToolOutput × Nat :=
  match mapGet s rid with
  | none => (s, notFoundOutput rid, 0)
  | some r =>
      if r.status ≠ Status.completed then
        (s, notCompletedOutput rid r.status, 0)
      else
        if needsFetch r then
          match engine (Option.getD r.openaiResponseId "") with
          | Except.error e =>
              (s, { error := some ("Failed to retrieve results: " ++ e),
                    status := some "error" }, 1)
          | Except.ok d =>
              let r2 : DistRequest := { r with response := some d }
              (mapSet s rid r2, distExtractOutput r2 (some d), 1)
        else
          (s, distExtractOutput r r.response, 0)

/-! ### Auxiliary lemmas -/

theorem citationsAux_length (i : Nat) (l : List Annot) :
    (citationsAux i l).length = l.length := by
  induction l generalizing i with
  | nil => rfl
  | cons a t ih => simp [citationsAux, ih]

theorem citationsAux_get (l : List Annot) :
    ∀ (i j : Nat) (h : j < l.length) (h2 : j < (citationsAux i l).length),
    (citationsAux i l).get ⟨j, h2⟩ =
      { id := i + j + 1, title := jsTitleDefault (Annot.title (l.get ⟨j, h⟩)),
        url := Annot.url (l.get ⟨j, h⟩), snippet := Annot.snippet (l.get ⟨j, h⟩) } := by
  induction l with
  | nil => intro i j h h2; exact absurd h (by simp)
  | cons a t ih =>
      intro i j h h2
      cases j with
      | zero => rfl
      | succ j1 =>
          have h3 : j1 < t.length := Nat.lt_of_succ_lt_succ (by simpa using h)
          have h4 : j1 < (citationsAux (i + 1) t).length := by
            rw [citationsAux_length]; exact h3
          have hstep : (citationsAux i (a :: t)).get ⟨j1 + 1, h2⟩ =
              (citationsAux (i + 1) t).get ⟨j1, h4⟩ := rfl
          have hget : (a :: t).get ⟨j1 + 1, h⟩ = t.get ⟨j1, h3⟩ := rfl
          rw [hstep, ih (i + 1) j1 h3 h4, hget]
          have hid : i + 1 + j1 + 1 = i + (j1 + 1) + 1 := by omega
          rw [hid]

theorem getResultsTs_state (s : TsState) (rid : String) :
    (getResultsTs s rid).1 = s := by
  unfold getResultsTs
  repeat first
  | rfl
  | split

/-! ### Reachable states of the TypeScript program -/

/-- Registry states reachable in `src/server.ts`: the empty initial map,
closed under the three handlers at arbitrary external inputs (engine
outcome, clock reading, random suffix, request arguments). -/
inductive TsReachable : TsState → Prop where
  | init : TsReachable []
  | create (s : TsState) (inp : CreateInput) (eres : Except String ResponseDoc)
      (now : Nat) (rand : String) :
      TsReachable s → TsReachable (createTs s inp eres now rand).1
  | check (s : TsState) (rid : String) (now : Nat) :
      TsReachable s → TsReachable (checkStatusTs s rid now).1
  | getr (s : TsState) (rid : String) :
      TsReachable s → TsReachable (getResultsTs s rid).1

theorem tsReachable_inv (s : TsState) (hs : TsReachable s) :
    ∀ (rid : String) (r : ResearchRequest), mapGet s rid = some r →
      (r.status = Status.pending ∨ r.status = Status.completed) ∧
        ResearchRequest.error r = none := by
  induction hs with
  | init => intro rid r hr; simp [mapGet] at hr
  | create s0 inp eres now rand hs0 ih =>
      intro rid r hr
      cases eres with
      | error e => exact ih rid r hr
      | ok doc =>
          simp only [createTs] at hr
          rw [mapGet_mapSet] at hr
          by_cases hk : requestIdFor now rand = rid
          · rw [if_pos hk] at hr
            cases hr
            exact ⟨Or.inl rfl, rfl⟩
          · rw [if_neg hk] at hr
            exact ih rid r hr
  | check s0 rid0 now hs0 ih =>
      intro rid r hr
      cases h0 : mapGet s0 rid0 with
      | none => simp only [checkStatusTs, h0] at hr; exact ih rid r hr
      | some r1 =>
          simp only [checkStatusTs, h0] at hr
          by_cases hc : now - r1.createdAt > 300000 ∧ r1.status = Status.pending
          · rw [if_pos hc] at hr
            simp only at hr
            rw [mapGet_mapSet] at hr
            by_cases hk : rid0 = rid
            · rw [if_pos hk] at hr
              cases hr
              exact ⟨Or.inr rfl, (ih rid0 r1 h0).2⟩
            · rw [if_neg hk] at hr
              exact ih rid r hr
          · rw [if_neg hc] at hr
            exact ih rid r hr
  | getr s0 rid0 hs0 ih =>
      intro rid r hr
      rw [getResultsTs_state] at hr
      exact ih rid r hr

/-! ## Claims

Each claim of the design spec is settled by one theorem below. -/

/-! ### C1 -/

/-- Concrete pending job for exercising the TypeScript check_status. -/
def c1req : ResearchRequest :=
  { id := "req_0_a", query := "q", systemMessage := none,
    model := "o3-deep-research-2025-06-26", status := Status.pending,
    response := none, error := none, createdAt := 0 }

/-- C1: the claim says check-status on a pending job queries the external
engine by the stored operation reference and transitions only per the
engine-reported status, the creation timestamp being used only to report
elapsed time.  The TypeScript source violates this: `checkStatusTs` takes
no engine oracle at all (the handler performs no engine call), and this
evaluation shows a pending job flipped to completed purely because more
than five minutes elapsed since `createdAt` (at 300001 ms), while at
299999 ms it stays pending — the timestamp alone drives the transition.
The shipped `dist/server.js` build conforms to the claim (see
`distCheckStatus_engine_driven`). -/
theorem C1_ts_elapsed_time_drives_status :
    (mapGet (checkStatusTs [("req_0_a", c1req)] "req_0_a" 300001).1 "req_0_a").map
        ResearchRequest.status = some Status.completed ∧
    (checkStatusTs [("req_0_a", c1req)] "req_0_a" 300001).2.status = some "completed" ∧
    (mapGet (checkStatusTs [("req_0_a", c1req)] "req_0_a" 299999).1 "req_0_a").map
        ResearchRequest.status = some Status.pending ∧
    (checkStatusTs [("req_0_a", c1req)] "req_0_a" 299999).2.status = some "pending" := by
  decide

/-! ### C2 -/

/-- Concrete create input for the C2 evaluation. -/
def c2inp : CreateInput :=
  { query := "q2", system_message := none,
    model := "o3-deep-research-2025-06-26", include_code_interpreter := false }

/-- Concrete raw document returned by the background-create call. -/
def c2doc : ResponseDoc :=
  { id := some "resp_1", status := some "queued", output := JField.absent }

/-- C2: the claim says the cached raw result document is set if and only
if the job's status is completed.  The TypeScript create handler violates
the iff: it stores the raw response of the background-create call in the
job's `response` field at creation time, while the status is still
pending, as this evaluation shows.  (In `dist/server.js` the job is
created with `response := none` and the cache is written only on an
engine-reported completed, conforming to the claim.) -/
theorem C2_ts_cached_result_set_while_pending :
    (mapGet (createTs [] c2inp (Except.ok c2doc) 5 "abc").1 "req_5_abc").map
        (fun r => (ResearchRequest.status r, Option.isSome (ResearchRequest.response r))) =
      some (Status.pending, true) := by
  decide

/-! ### C3 -/

/-- Concrete completed job with no cached result document. -/
def c3req : ResearchRequest :=
  { id := "r1", query := "q3", systemMessage := none,
    model := "o3-deep-research-2025-06-26", status := Status.completed,
    response := none, error := none, createdAt := 0 }

/-- C3: the claim says get-results on a completed job whose cached
document is missing performs exactly one retrieval from the engine.  The
TypeScript source violates this: `getResultsTs` takes no engine oracle
(the handler contains no retrieval call) and, as this evaluation shows,
it answers the structured error `No results available` with the registry
unchanged instead of fetching the document.  The shipped `dist/server.js`
build conforms (see `distGetResults_single_lazy_retrieval`). -/
theorem C3_ts_no_retrieval_for_missing_cache :
    getResultsTs [("r1", c3req)] "r1" =
      ([("r1", c3req)],
       { error := some "No results available", status := some "error" }) := by
  decide

/-! ### C7 -/

/-- Concrete completed job with no cached result document. -/
def c7req : ResearchRequest :=
  { id := "r1", query := "q7", systemMessage := none,
    model := "o3-deep-research-2025-06-26", status := Status.completed,
    response := none, error := none, createdAt := 0 }

/-- C7 counterexample: the claim states get-results returns a results
payload if and only if a job with that id exists and is completed.  Here
is a completed, existing job on which get-results returns no results
payload but a structured error (its cached document is missing and the
TypeScript handler performs no retrieval), refuting the `if` direction of
the claimed equivalence. -/
theorem C7_counterexample :
    mapGet [("r1", c7req)] "r1" = some c7req ∧
    ResearchRequest.status c7req = Status.completed ∧
    (getResultsTs [("r1", c7req)] "r1").2.results = none ∧
    Option.isSome ((getResultsTs [("r1", c7req)] "r1").2.error) = true := by
  decide

/-- C7 amended: a results payload is returned only if a job with that id
exists and is completed (the converse can fail when the result document
is missing or malformed); an unknown id yields the structured not_found
error with no results field; a known, non-completed job yields an error
string together with its current status and never a results field. -/
theorem C7_amended_results_only_for_completed (st : TsState) (rid : String) :
    (mapGet st rid = none →
        (getResultsTs st rid).2.status = some "not_found" ∧
        Option.isSome ((getResultsTs st rid).2.error) = true ∧
        (getResultsTs st rid).2.results = none) ∧
    (∀ r, mapGet st rid = some r → ResearchRequest.status r ≠ Status.completed →
        Option.isSome ((getResultsTs st rid).2.error) = true ∧
        (getResultsTs st rid).2.status = some (statusStr (ResearchRequest.status r)) ∧
        (getResultsTs st rid).2.results = none) ∧
    (∀ p, (getResultsTs st rid).2.results = some p →
        ∃ r, mapGet st rid = some r ∧ ResearchRequest.status r = Status.completed) := by
  refine ⟨?_, ?_, ?_⟩
  · intro h0
    simp [getResultsTs, h0, notFoundOutput]
  · intro r h0 hnc
    simp [getResultsTs, h0, if_pos hnc, notCompletedOutput, statusStr]
  · intro p hp
    cases h0 : mapGet st rid with
    | none => simp [getResultsTs, h0, notFoundOutput] at hp
    | some r =>
        by_cases hnc : ResearchRequest.status r ≠ Status.completed
        · simp [getResultsTs, h0, if_pos hnc, notCompletedOutput] at hp
        · exact ⟨r, rfl, not_not.mp hnc⟩

/-- C7 witness: the amended theorem applied at the empty registry and an
unknown id. -/
theorem C7_amended_witness :
    (getResultsTs [] "nope").2.status = some "not_found" :=
  ((C7_amended_results_only_for_completed [] "nope").1 rfl).1

/-! ### C8 -/

/-- C8: when the engine's background-operation-start call fails (or the
client cannot be constructed), both implementations of the create handler
return the structured failure document carrying the error message and
leave the registry exactly as it was — no job is inserted. -/
theorem C8_failed_create_leaves_registry_unchanged (s : TsState) (ds : DistState)
    (inp : CreateInput) (e : String) (now : Nat) (rand : String) :
    createTs s inp (Except.error e) now rand =
      (s, { error := some ("Failed to create research request: " ++ e),
            status := some "failed" }) ∧
    createDist ds inp (Except.error e) now rand =
      (ds, { error := some ("Failed to create research request: " ++ e),
             status := some "failed" }) :=
  ⟨rfl, rfl⟩

/-! ### C9 -/

/-- First create input of the C9 collision scenario. -/
def c9inp1 : CreateInput :=
  { query := "first", system_message := none,
    model := "o3-deep-research-2025-06-26", include_code_interpreter := false }

/-- Second create input of the C9 collision scenario. -/
def c9inp2 : CreateInput :=
  { query := "second", system_message := none,
    model := "o3-deep-research-2025-06-26", include_code_interpreter := false }

/-- Raw create-call document of the C9 scenario. -/
def c9doc : ResponseDoc :=
  { id := some "resp_9", status := some "queued", output := JField.absent }

/-- C9 counterexample: identifiers are `req_${Date.now()}_${random
suffix}` and storage is `Map.set`, which replaces an existing entry
rather than insert-if-absent.  Two create calls observing the same
millisecond timestamp and the same random suffix return the same
identifier, and the second call reassigns the registry entry: afterwards
the registry holds a single job whose query is the second call's.  This
refutes unconditional id uniqueness and the insert-if-absent reading. -/
theorem C9_counterexample :
    (createTs [] c9inp1 (Except.ok c9doc) 7 "zzz").2.request_id = some "req_7_zzz" ∧
    (createTs (createTs [] c9inp1 (Except.ok c9doc) 7 "zzz").1 c9inp2
        (Except.ok c9doc) 7 "zzz").2.request_id = some "req_7_zzz" ∧
    ((createTs (createTs [] c9inp1 (Except.ok c9doc) 7 "zzz").1 c9inp2
        (Except.ok c9doc) 7 "zzz").1).length = 1 ∧
    (mapGet (createTs (createTs [] c9inp1 (Except.ok c9doc) 7 "zzz").1 c9inp2
        (Except.ok c9doc) 7 "zzz").1 "req_7_zzz").map ResearchRequest.query =
      some "second" := by
  decide

/-- C9 amended: the returned identifier is always non-empty (it begins
with `req_`), and whenever the generated identifier is fresh — not
already a key of the registry, which holds whenever the
timestamp/random-suffix pair has not repeated — the create call inserts
exactly one new pending job under it, leaves every other entry untouched,
and grows the registry by one. -/
theorem C9_amended_fresh_id_unique_insert (st : TsState) (inp : CreateInput)
    (doc : ResponseDoc) (now : Nat) (rand : String)
    (hfresh : mapGet st (requestIdFor now rand) = none) :
    (createTs st inp (Except.ok doc) now rand).2.request_id =
      some (requestIdFor now rand) ∧
    0 < (requestIdFor now rand).length ∧
    (∃ r, mapGet (createTs st inp (Except.ok doc) now rand).1
            (requestIdFor now rand) = some r ∧
        ResearchRequest.status r = Status.pending ∧
        ResearchRequest.query r = CreateInput.query inp) ∧
    (∀ j, j ≠ requestIdFor now rand →
        mapGet (createTs st inp (Except.ok doc) now rand).1 j = mapGet st j) ∧
    ((createTs st inp (Except.ok doc) now rand).1).length = st.length + 1 := by
  refine ⟨rfl, ?_, ?_, ?_, ?_⟩
  · have h4 : ("req_" ++ toString now ++ "_" ++ rand).length =
        "req_".length + (toString now).length + "_".length + rand.length := by
      simp [String.length_append]
    have h5 : "req_".length = 4 := by decide
    unfold requestIdFor
    omega
  · refine ⟨{ id := requestIdFor now rand, query := CreateInput.query inp,
              systemMessage := CreateInput.system_message inp,
              model := CreateInput.model inp, status := Status.pending,
              response := some doc, error := none, createdAt := now },
            ?_, rfl, rfl⟩
    simp only [createTs]
    rw [mapGet_mapSet, if_pos rfl]
  · intro j hj
    simp only [createTs]
    rw [mapGet_mapSet, if_neg (fun h => hj h.symm)]
  · simp only [createTs]
    exact mapSet_length_of_fresh st _ _ hfresh

/-- C9 witness: the amended theorem applied at the empty registry, where
the generated id is trivially fresh. -/
theorem C9_amended_witness :
    (createTs [] c9inp1 (Except.ok c9doc) 2 "w").2.request_id =
      some (requestIdFor 2 "w") :=
  (C9_amended_fresh_id_unique_insert [] c9inp1 c9doc 2 "w" rfl).1

/-! ### C4 -/

/-- C4: for a completed job with a cached result document whose output
list ends in a message with a non-empty content list, extraction uses the
last output message as the primary message and its first content item as
the primary content block, and emits one citation per annotation record
in original order: 1-based ordinals, `title` defaulted to `Unknown` when
missing, and `url`/`snippet` passed through unchanged (absent when absent
upstream). -/
theorem C4_citation_extraction (st : TsState) (rid : String)
    (r : ResearchRequest) (d : ResponseDoc) (msgs : List OutputMsg)
    (m : OutputMsg) (c : ContentItem) (cs : List ContentItem) (anns : List Annot)
    (h1 : mapGet st rid = some r) (h2 : ResearchRequest.status r = Status.completed)
    (h3 : ResearchRequest.response r = some d)
    (h4 : ResponseDoc.output d = JField.arr msgs)
    (h5 : msgs.getLast? = some m)
    (h6 : OutputMsg.content m = JField.arr (c :: cs))
    (h7 : ContentItem.annots c = some anns) :
    ∃ p, (getResultsTs st rid).2.results = some p ∧
      ResultsPayload.report p = reportText c ∧
      ResultsPayload.citation_count p = anns.length ∧
      (ResultsPayload.citations p).length = anns.length ∧
      ∀ i (hi : i < anns.length) (hc2 : i < (ResultsPayload.citations p).length),
        Citation.id ((ResultsPayload.citations p).get ⟨i, hc2⟩) = i + 1 ∧
        Citation.url ((ResultsPayload.citations p).get ⟨i, hc2⟩) =
          Annot.url (anns.get ⟨i, hi⟩) ∧
        Citation.snippet ((ResultsPayload.citations p).get ⟨i, hc2⟩) =
          Annot.snippet (anns.get ⟨i, hi⟩) ∧
        (Annot.title (anns.get ⟨i, hi⟩) = none →
          Citation.title ((ResultsPayload.citations p).get ⟨i, hc2⟩) = "Unknown") ∧
        (∀ t, Annot.title (anns.get ⟨i, hi⟩) = some t → t ≠ "" →
          Citation.title ((ResultsPayload.citations p).get ⟨i, hc2⟩) = t) := by
  have hmc : tsMainContent (JField.arr msgs) = some (PrimaryContent.item c) := by
    simp only [tsMainContent, h5, h6, contentHead, List.head?, Option.map]
  have hne : ¬ ResearchRequest.status r ≠ Status.completed := fun hx => hx h2
  have hcit : extractCitations c = citationsAux 0 anns := by
    simp only [extractCitations, h7]
  have hout : (getResultsTs st rid).2 = tsSuccessOutput r (PrimaryContent.item c) := by
    simp [getResultsTs, h1, if_neg hne, tsExtractOutput, jfTruthy, h3, h4, hmc]
  refine ⟨{ report := reportText c, citations := citationsAux 0 anns,
            citation_count := (citationsAux 0 anns).length },
          ?_, rfl, ?_, ?_, ?_⟩
  · rw [hout]
    simp only [tsSuccessOutput, reportTextPC, extractCitationsPC, hcit]
  · exact citationsAux_length 0 anns
  · exact citationsAux_length 0 anns
  · intro i hi hc2
    have hg := citationsAux_get anns 0 i hi hc2
    rw [hg]
    refine ⟨by show 0 + i + 1 = i + 1; omega, rfl, rfl, ?_, ?_⟩
    · intro hnone
      simp only [hnone, jsTitleDefault]
    · intro t ht hne2
      simp only [ht, jsTitleDefault, if_neg hne2]

/-- Annotation record with title and url, for the C4 witness. -/
def c4ann1 : Annot := { title := some "Src", url := some "http://x", snippet := none }

/-- Untitled annotation record, for the C4 witness. -/
def c4ann2 : Annot := { title := none, url := none, snippet := some "snip" }

/-- Primary content block of the C4 witness document. -/
def c4c : ContentItem := { text := some "pong", annots := some [c4ann1, c4ann2] }

/-- Result document of the C4 witness: one message with one content item
carrying two annotation records. -/
def c4doc : ResponseDoc :=
  { id := some "resp_4", status := some "completed",
    output := JField.arr [{ content := JField.arr [c4c] }] }

/-- Completed job holding the C4 witness document. -/
def c4req : ResearchRequest :=
  { id := "a4", query := "q4", systemMessage := none,
    model := "o3-deep-research-2025-06-26", status := Status.completed,
    response := some c4doc, error := none, createdAt := 0 }

/-- C4 witness: the extraction theorem applied to a concrete completed job
with two annotation records, one of them untitled. -/
theorem C4_citation_extraction_witness :
    ∃ p, (getResultsTs [("a4", c4req)] "a4").2.results = some p ∧
      ResultsPayload.report p = reportText c4c ∧
      ResultsPayload.citation_count p = [c4ann1, c4ann2].length ∧
      (ResultsPayload.citations p).length = [c4ann1, c4ann2].length ∧
      ∀ i (hi : i < [c4ann1, c4ann2].length)
        (hc2 : i < (ResultsPayload.citations p).length),
        Citation.id ((ResultsPayload.citations p).get ⟨i, hc2⟩) = i + 1 ∧
        Citation.url ((ResultsPayload.citations p).get ⟨i, hc2⟩) =
          Annot.url ([c4ann1, c4ann2].get ⟨i, hi⟩) ∧
        Citation.snippet ((ResultsPayload.citations p).get ⟨i, hc2⟩) =
          Annot.snippet ([c4ann1, c4ann2].get ⟨i, hi⟩) ∧
        (Annot.title ([c4ann1, c4ann2].get ⟨i, hi⟩) = none →
          Citation.title ((ResultsPayload.citations p).get ⟨i, hc2⟩) = "Unknown") ∧
        (∀ t, Annot.title ([c4ann1, c4ann2].get ⟨i, hi⟩) = some t → t ≠ "" →
          Citation.title ((ResultsPayload.citations p).get ⟨i, hc2⟩) = t) :=
  C4_citation_extraction [("a4", c4req)] "a4" c4req c4doc
    [{ content := JField.arr [c4c] }] { content := JField.arr [c4c] } c4c []
    [c4ann1, c4ann2] (by decide) (by decide) (by decide) (by decide)
    (by decide) (by decide) (by decide)

/-! ### C5 -/

/-- The content field of a message is not a non-empty array. -/
def badContent : JField ContentItem → Bool
  | JField.arr cs => cs.isEmpty
  | _ => true

/-- There is no last output message, or it lacks a non-empty content
list. -/
def badLastContent (msgs : List OutputMsg) : Bool :=
  match msgs.getLast? with
  | none => true
  | some m => badContent (OutputMsg.content m)

/-- The output field is absent, not a sequence, or empty, or its last
message fails `badContent`. -/
def badOutput : JField OutputMsg → Bool
  | JField.arr msgs => badLastContent msgs
  | _ => true

/-- The malformed shapes named by the spec, as a predicate on the raw
document. -/
def malformedDoc (d : ResponseDoc) : Bool :=
  badOutput (ResponseDoc.output d)

theorem distContentOutput_bad (r : DistRequest) (cf : JField ContentItem)
    (h : badContent cf = true) :
    Option.isSome (ToolOutput.error (distContentOutput r cf)) = true ∧
    ToolOutput.status (distContentOutput r cf) = some "error" ∧
    ToolOutput.results (distContentOutput r cf) = none := by
  cases cf with
  | arr cs =>
      cases cs with
      | nil => exact ⟨rfl, rfl, rfl⟩
      | cons a t => simp [badContent, List.isEmpty] at h
  | absent => exact ⟨rfl, rfl, rfl⟩
  | str s => exact ⟨rfl, rfl, rfl⟩
  | notArray => exact ⟨rfl, rfl, rfl⟩

theorem distOutputStage_bad (r : DistRequest) (o : JField OutputMsg)
    (h : badOutput o = true) :
    Option.isSome (ToolOutput.error (distOutputStage r o)) = true ∧
    ToolOutput.status (distOutputStage r o) = some "error" ∧
    ToolOutput.results (distOutputStage r o) = none := by
  cases o with
  | absent => exact ⟨rfl, rfl, rfl⟩
  | str s => exact ⟨rfl, rfl, rfl⟩
  | notArray => exact ⟨rfl, rfl, rfl⟩
  | arr msgs =>
      have h2 : badLastContent msgs = true := h
      revert h2
      unfold badLastContent
      simp only [distOutputStage]
      cases msgs.getLast? with
      | none => intro h2; exact ⟨rfl, rfl, rfl⟩
      | some m => intro h2; exact distContentOutput_bad r _ h2

theorem distExtract_malformed (r : DistRequest) (d : ResponseDoc)
    (h : malformedDoc d = true) :
    Option.isSome (ToolOutput.error (distExtractOutput r (some d))) = true ∧
    ToolOutput.status (distExtractOutput r (some d)) = some "error" ∧
    ToolOutput.results (distExtractOutput r (some d)) = none := by
  simp only [distExtractOutput]
  exact distOutputStage_bad r _ h

theorem getResultsDist_malformed (ds : DistState) (rid : String)
    (engine : String → Except String ResponseDoc) (q : DistRequest)
    (h1 : mapGet ds rid = some q) (h2 : DistRequest.status q = Status.completed)
    (h3 : ∀ d, distReadDoc q engine = some d → malformedDoc d = true) :
    Option.isSome ((getResultsDist ds rid engine).2.1.error) = true ∧
    (getResultsDist ds rid engine).2.1.status = some "error" ∧
    (getResultsDist ds rid engine).2.1.results = none := by
  have hne : ¬ DistRequest.status q ≠ Status.completed := fun hx => hx h2
  simp only [getResultsDist, h1, if_neg hne]
  by_cases hf : needsFetch q = true
  · rw [if_pos hf]
    cases he : engine (Option.getD (DistRequest.openaiResponseId q) "") with
    | error e => exact ⟨rfl, rfl, rfl⟩
    | ok d =>
        have hd : malformedDoc d = true := by
          refine h3 d ?_
          unfold distReadDoc
          rw [if_pos hf, he]
    -- the extraction runs on the freshly fetched document
        exact distExtract_malformed { q with response := some d } d hd
  · rw [if_neg hf]
    cases hr : DistRequest.response q with
    | none => exact ⟨rfl, rfl, rfl⟩
    | some d =>
        have hd : malformedDoc d = true := by
          refine h3 d ?_
          unfold distReadDoc
          rw [if_neg hf]
          exact hr
        exact distExtract_malformed q d hd

/-- Result document whose last (and only) output message carries a
string-valued `content` field — a message that lacks a content list, one
of the malformed shapes named by the claim (certified by `malformedDoc`
in the theorem below). -/
def c5doc : ResponseDoc :=
  { id := some "resp_5", status := some "completed",
    output := JField.arr [{ content := JField.str "hi" }] }

/-- Completed TypeScript job caching that document. -/
def c5req : ResearchRequest :=
  { id := "a5", query := "q5", systemMessage := none,
    model := "o3-deep-research-2025-06-26", status := Status.completed,
    response := some c5doc, error := none, createdAt := 0 }

/-- Completed dist job caching the same document, with no operation
reference so no lazy fetch can replace it. -/
def c5q : DistRequest :=
  { id := "a5", query := "q5", systemMessage := none,
    model := "o3-deep-research-2025-06-26", status := Status.completed,
    openaiResponseId := none, response := some c5doc,
    error := none, createdAt := 0 }

/-- C5: the claim says get-results on a completed job whose result
document has a malformed output — absent, not a sequence, empty, or a
last message lacking a non-empty content list — returns a structured
response with an error string and status `error`.  The TypeScript source
violates this: when the last message's `content` is the string `"hi"`
(so the document is malformed in the claim's sense, first conjunct),
`content?.[0]` plucks the truthy character `"h"` instead of being
undefined, and the handler returns a success payload — status
`completed`, report `"h"`, no citations and no error — in place of the
required structured error.  The shipped `dist/server.js` conforms on the
very same document through its `Array.isArray` content guard, returning
the structured error (last three conjuncts; its general conformance on
all malformed documents is `getResultsDist_malformed`). -/
theorem C5_ts_string_content_success :
    malformedDoc c5doc = true ∧
    (getResultsTs [("a5", c5req)] "a5").2.error = none ∧
    (getResultsTs [("a5", c5req)] "a5").2.status = some "completed" ∧
    (getResultsTs [("a5", c5req)] "a5").2.results =
      some { report := "h", citations := [], citation_count := 0 } ∧
    Option.isSome
      ((getResultsDist [("a5", c5q)] "a5" (fun _ => Except.error "down")).2.1.error) =
      true ∧
    (getResultsDist [("a5", c5q)] "a5" (fun _ => Except.error "down")).2.1.status =
      some "error" ∧
    (getResultsDist [("a5", c5q)] "a5" (fun _ => Except.error "down")).2.1.results =
      none := by
  decide

/-! ### C6 -/

theorem checkStatusTs_terminal (s : TsState) (rid : String) (now : Nat)
    (r : ResearchRequest) (h1 : mapGet s rid = some r)
    (h2 : ResearchRequest.status r ≠ Status.pending) :
    checkStatusTs s rid now = (s, checkOutput r now) := by
  have hc : ¬ (now - ResearchRequest.createdAt r > 300000 ∧
      ResearchRequest.status r = Status.pending) := fun hx => h2 hx.2
  simp only [checkStatusTs, h1, if_neg hc]

theorem checkStatusDist_terminal (ds : DistState) (rid : String)
    (engine : String → Except String ResponseDoc) (now : Nat) (q : DistRequest)
    (h1 : mapGet ds rid = some q) (h2 : DistRequest.status q ≠ Status.pending) :
    checkStatusDist ds rid engine now = (ds, distCheckOutput q now, false) := by
  have hc : ¬ (optStrTruthy (DistRequest.openaiResponseId q) = true ∧
      DistRequest.status q = Status.pending) := fun hx => h2 hx.2
  simp only [checkStatusDist, h1, if_neg hc]

theorem getResultsDist_preserves_status (ds : DistState) (rid : String)
    (engine : String → Except String ResponseDoc) (j : String) (t : DistRequest)
    (ht : mapGet ds j = some t) :
    ∃ t2, mapGet (getResultsDist ds rid engine).1 j = some t2 ∧
      DistRequest.status t2 = DistRequest.status t := by
  cases h0 : mapGet ds rid with
  | none => exact ⟨t, by simp only [getResultsDist, h0]; exact ht, rfl⟩
  | some r =>
      by_cases hc : DistRequest.status r ≠ Status.completed
      · exact ⟨t, by simp only [getResultsDist, h0, if_pos hc]; exact ht, rfl⟩
      · by_cases hf : needsFetch r = true
        · cases he : engine (Option.getD (DistRequest.openaiResponseId r) "") with
          | error e =>
              refine ⟨t, ?_, rfl⟩
              simp only [getResultsDist, h0, if_neg hc, if_pos hf, he]
              exact ht
          | ok d =>
              have hst : (getResultsDist ds rid engine).1 =
                  mapSet ds rid { r with response := some d } := by
                simp only [getResultsDist, h0, if_neg hc, if_pos hf, he]
              rw [hst, mapGet_mapSet]
              by_cases hk : rid = j
              · subst hk
                rw [if_pos rfl]
                refine ⟨_, rfl, ?_⟩
                have hrt : r = t := by rw [h0] at ht; exact Option.some.inj ht
                rw [← hrt]
              · rw [if_neg hk]
                exact ⟨t, ht, rfl⟩
        · refine ⟨t, ?_, rfl⟩
          simp only [getResultsDist, h0, if_neg hc, if_neg hf]
          exact ht

/-- C6: no operation moves a job out of a terminal state.  On a job whose
status is terminal, check_status in both implementations leaves the
registry untouched and reports the stored status, and the dist handler
makes no engine call (the TypeScript `checkStatusTs` takes no engine
oracle at all, so it can never re-query); get_results never changes any
job's status in either implementation — the TypeScript one returns the
registry unchanged, the dist one can only update a cached response
field. -/
theorem C6_terminal_states_frozen (st : TsState) (ds : DistState) (rid : String)
    (now : Nat) (engine : String → Except String ResponseDoc)
    (r : ResearchRequest) (q : DistRequest)
    (h1 : mapGet st rid = some r) (h2 : ResearchRequest.status r ≠ Status.pending)
    (h3 : mapGet ds rid = some q) (h4 : DistRequest.status q ≠ Status.pending) :
    (checkStatusTs st rid now).1 = st ∧
    (checkStatusTs st rid now).2.status = some (statusStr (ResearchRequest.status r)) ∧
    (checkStatusDist ds rid engine now).1 = ds ∧
    (checkStatusDist ds rid engine now).2.1.status =
      some (statusStr (DistRequest.status q)) ∧
    (checkStatusDist ds rid engine now).2.2 = false ∧
    (getResultsTs st rid).1 = st ∧
    (∀ j t, mapGet ds j = some t →
      ∃ t2, mapGet (getResultsDist ds rid engine).1 j = some t2 ∧
        DistRequest.status t2 = DistRequest.status t) := by
  refine ⟨?_, ?_, ?_, ?_, ?_, getResultsTs_state st rid, ?_⟩
  · rw [checkStatusTs_terminal st rid now r h1 h2]
  · rw [checkStatusTs_terminal st rid now r h1 h2]
    rfl
  · rw [checkStatusDist_terminal ds rid engine now q h3 h4]
  · rw [checkStatusDist_terminal ds rid engine now q h3 h4]
    rfl
  · rw [checkStatusDist_terminal ds rid engine now q h3 h4]
  · intro j t ht
    exact getResultsDist_preserves_status ds rid engine j t ht

/-- Completed TypeScript job for the C6 witness. -/
def c6r : ResearchRequest :=
  { id := "a6", query := "q6", systemMessage := none,
    model := "o3-deep-research-2025-06-26", status := Status.completed,
    response := none, error := none, createdAt := 0 }

/-- Completed dist job for the C6 witness. -/
def c6q : DistRequest :=
  { id := "a6", query := "q6", systemMessage := none,
    model := "o3-deep-research-2025-06-26", status := Status.completed,
    openaiResponseId := some "op6", response := none, error := none,
    createdAt := 0 }

/-- C6 witness: the theorem applied to concrete completed jobs and an
engine stub that would fail if it were ever called. -/
theorem C6_terminal_states_witness :
    (checkStatusTs [("a6", c6r)] "a6" 1).1 = [("a6", c6r)] :=
  (C6_terminal_states_frozen [("a6", c6r)] [("a6", c6q)] "a6" 1
    (fun _ => Except.error "boom") c6r c6q (by decide) (by decide) (by decide)
    (by decide)).1

/-! ### C10 -/

/-- C10: in the TypeScript source no tracked job can ever reach the
failed status: every job in every reachable registry state is pending or
completed and its error field is empty; the only status change
check_status ever performs on a stored job is pending to completed,
exactly when more than five minutes (300000 ms) of wall clock have
elapsed since creation; and get_results never modifies the registry. -/
theorem C10_ts_jobs_never_failed :
    (∀ s, TsReachable s → ∀ rid r, mapGet s rid = some r →
        (ResearchRequest.status r = Status.pending ∨
         ResearchRequest.status r = Status.completed) ∧
        ResearchRequest.error r = none) ∧
    (∀ s rid now j r r2, mapGet s j = some r →
        mapGet (checkStatusTs s rid now).1 j = some r2 →
        r2 = r ∨ (j = rid ∧ ResearchRequest.status r = Status.pending ∧
          now - ResearchRequest.createdAt r > 300000 ∧
          r2 = { r with status := Status.completed })) ∧
    (∀ s rid, (getResultsTs s rid).1 = s) := by
  refine ⟨fun s hs => tsReachable_inv s hs, ?_, fun s rid => getResultsTs_state s rid⟩
  intro s rid now j r r2 hr hr2
  cases h0 : mapGet s rid with
  | none =>
      simp only [checkStatusTs, h0] at hr2
      rw [hr] at hr2
      exact Or.inl (Option.some.inj hr2).symm
  | some r1 =>
      simp only [checkStatusTs, h0] at hr2
      by_cases hc : now - ResearchRequest.createdAt r1 > 300000 ∧
          ResearchRequest.status r1 = Status.pending
      · rw [if_pos hc] at hr2
        simp only at hr2
        rw [mapGet_mapSet] at hr2
        by_cases hk : rid = j
        · subst hk
          rw [if_pos rfl] at hr2
          have hrr : r1 = r := by rw [h0] at hr; exact Option.some.inj hr
          subst hrr
          right
          exact ⟨rfl, hc.2, hc.1, (Option.some.inj hr2).symm⟩
        · rw [if_neg hk] at hr2
          rw [hr] at hr2
          exact Or.inl (Option.some.inj hr2).symm
      · rw [if_neg hc] at hr2
        rw [hr] at hr2
        exact Or.inl (Option.some.inj hr2).symm

/-- Create input of the C10 witness. -/
def c10inp : CreateInput :=
  { query := "q10", system_message := none,
    model := "o3-deep-research-2025-06-26", include_code_interpreter := false }

/-- Raw create-call document of the C10 witness. -/
def c10doc : ResponseDoc :=
  { id := some "resp_10", status := some "queued", output := JField.absent }

/-- The job stored by the C10 witness create call. -/
def c10r : ResearchRequest :=
  { id := "req_3_b", query := "q10", systemMessage := none,
    model := "o3-deep-research-2025-06-26", status := Status.pending,
    response := some c10doc, error := none, createdAt := 3 }

/-- C10 witness: the invariant applied to the reachable state produced by
one successful create call. -/
theorem C10_ts_jobs_never_failed_witness :
    (ResearchRequest.status c10r = Status.pending ∨
     ResearchRequest.status c10r = Status.completed) ∧
    ResearchRequest.error c10r = none :=
  C10_ts_jobs_never_failed.1 (createTs [] c10inp (Except.ok c10doc) 3 "b").1
    (TsReachable.create [] c10inp (Except.ok c10doc) 3 "b" TsReachable.init)
    "req_3_b" c10r (by decide)

/-! ### Supporting facts about the shipped dist build -/

/-- The shipped dist check_status is engine-driven: on a pending job with
a truthy operation reference it calls the engine, and it transitions only
per the engine-reported status — completed caches the document and
completes the job, failed records the fixed failure message, any other
report (or a thrown retrieval error) leaves the registry unchanged. -/
theorem distCheckStatus_engine_driven (ds : DistState) (rid : String)
    (engine : String → Except String ResponseDoc) (now : Nat) (q : DistRequest)
    (h1 : mapGet ds rid = some q) (h2 : DistRequest.status q = Status.pending)
    (h3 : optStrTruthy (DistRequest.openaiResponseId q) = true) :
    (checkStatusDist ds rid engine now).2.2 = true ∧
    (∀ d, engine (Option.getD (DistRequest.openaiResponseId q) "") = Except.ok d →
      (ResponseDoc.status d = some "completed" →
        mapGet (checkStatusDist ds rid engine now).1 rid =
          some { q with status := Status.completed, response := some d }) ∧
      (ResponseDoc.status d ≠ some "completed" → ResponseDoc.status d = some "failed" →
        mapGet (checkStatusDist ds rid engine now).1 rid =
          some { q with
                 status := Status.failed,
                 error := some "Research request failed" }) ∧
      (ResponseDoc.status d ≠ some "completed" → ResponseDoc.status d ≠ some "failed" →
        (checkStatusDist ds rid engine now).1 = ds)) ∧
    (∀ e, engine (Option.getD (DistRequest.openaiResponseId q) "") = Except.error e →
      (checkStatusDist ds rid engine now).1 = ds) := by
  have hc : (optStrTruthy (DistRequest.openaiResponseId q) = true ∧
      DistRequest.status q = Status.pending) := ⟨h3, h2⟩
  refine ⟨?_, ?_, ?_⟩
  · simp only [checkStatusDist, h1, if_pos hc]
  · intro d hd
    refine ⟨?_, ?_, ?_⟩
    · intro hcomp
      simp only [checkStatusDist, h1, if_pos hc, hd, if_pos hcomp]
      rw [mapGet_mapSet, if_pos rfl]
    · intro hnc hfail
      simp only [checkStatusDist, h1, if_pos hc, hd, if_neg hnc, if_pos hfail]
      rw [mapGet_mapSet, if_pos rfl]
    · intro hnc hnf
      simp only [checkStatusDist, h1, if_pos hc, hd, if_neg hnc, if_neg hnf]
      exact mapSet_self ds rid q h1
  · intro e he
    simp only [checkStatusDist, h1, if_pos hc, he]
    exact mapSet_self ds rid q h1

/-- The shipped dist get_results performs exactly one lazy retrieval on a
completed job whose cached document is missing its output; when that
retrieval fails the registry is untouched and a structured error with
status `error` and no results field is returned. -/
theorem distGetResults_single_lazy_retrieval (ds : DistState) (rid : String)
    (engine : String → Except String ResponseDoc) (q : DistRequest)
    (h1 : mapGet ds rid = some q) (h2 : DistRequest.status q = Status.completed)
    (h3 : needsFetch q = true) :
    (getResultsDist ds rid engine).2.2 = 1 ∧
    (∀ e, engine (Option.getD (DistRequest.openaiResponseId q) "") = Except.error e →
      (getResultsDist ds rid engine).1 = ds ∧
      (getResultsDist ds rid engine).2.1.status = some "error" ∧
      Option.isSome ((getResultsDist ds rid engine).2.1.error) = true ∧
      (getResultsDist ds rid engine).2.1.results = none) := by
  have hne : ¬ DistRequest.status q ≠ Status.completed := fun hx => hx h2
  refine ⟨?_, ?_⟩
  · simp only [getResultsDist, h1, if_neg hne, if_pos h3]
    cases he : engine (Option.getD (DistRequest.openaiResponseId q) "") with
    | error e => rfl
    | ok d => rfl
  · intro e he
    simp [getResultsDist, h1, if_neg hne, if_pos h3, he]

end DeepResearch
